import Mathlib

set_option maxRecDepth 8000

/-!
Shallow embedding of `util_spectral_scan/src/loragw_fpga_reg.c`: the FPGA
register-access layer (register descriptor table, connection gating through
the global `spi_target` pointer, scalar marshaling with sub-byte
read-modify-write and multi-byte little-endian bursts, raw burst
pass-through, and the SX1272 passthrough operations), over an abstract byte
transport.  The transport (`loragw_fpga_spi`) is an external collaborator and
is kept abstract as a parameter; a perfect in-memory transport and an
always-failing transport are provided as concrete instances.
-/

/-- Register descriptor, mirroring `struct lgw_reg_s`. -/
structure LgwRegS where
  page : Int
  addr : Nat
  offs : Nat
  sign : Bool
  leng : Nat
  rdon : Bool
  dflt : Int
  deriving DecidableEq

/-- Error kinds, one per distinct error-return branch of the C code.  The C
code collapses all of them to the single caller-visible return code
`LGW_REG_ERROR` (-1); see `retCode`. -/
inductive RegErr where
  | invalidId
  | notConnected
  | readOnly
  | unsupported
  | spiError
  | emptyBuffer
  | openFail
  | deviceAbsent
  | versionMismatch
  | alreadyDisconnected
  deriving DecidableEq

deriving instance DecidableEq for Except

/-- Caller-visible C return code: `LGW_REG_SUCCESS` (0) on success,
`LGW_REG_ERROR` (-1) on every error branch. -/
def retCode : Except RegErr Unit → Int
  | .ok _ => 0
  | .error _ => -1

/-- Trace of byte-transport operations performed by a register operation.
`target` records whether the handle passed to the transport was non-null
(the C code passes the global `spi_target` pointer to every call). -/
inductive SpiOp where
  | openLink
  | closeLink
  | r (target : Bool) (mux addr : Nat)
  | w (target : Bool) (mux addr val : Nat)
  | rb (target : Bool) (mux addr size : Nat)
  | wb (target : Bool) (mux addr : Nat) (data : List Nat)
  deriving DecidableEq

/-- Abstract byte transport (`lgw_fpga_spi_r` / `_w` / `_rb` / `_wb`) over a
device state `σ`.  A `none` / `false` outcome models `LGW_SPI_ERROR`; on a
failed single read the caller's buffer byte is left untouched (the embedding
then uses the C code's zero-initialised buffer contents). -/
structure SpiOps (σ : Type) where
  r : σ → Nat → Nat → σ × Option Nat
  w : σ → Nat → Nat → Nat → σ × Bool
  rb : σ → Nat → Nat → Nat → σ × Option (List Nat)
  wb : σ → Nat → Nat → List Nat → σ × Bool

def FPGA_SPI_MUX_SX1301 : Nat := 0x00
def FPGA_SPI_MUX_FPGA_REG : Nat := 0x01
def FPGA_SPI_MUX_EEPROM : Nat := 0x02
def FPGA_SPI_MUX_SX1272 : Nat := 0x03

/-- Index of the VERSION register in the table (`LGW_FPGA_VERSION`). -/
def LGW_FPGA_VERSION : Nat := 1

/-- The concrete descriptor table `fpga_regs` from the source
(`{page, addr, offs, sign, leng, rdon, dflt}` per row). -/
def fpga_regs : List LgwRegS :=
  [⟨-1, 0, 0, false, 1, false, 0⟩,       -- SOFT_RESET
   ⟨-1, 1, 0, false, 8, true, 18⟩,       -- VERSION
   ⟨-1, 2, 0, false, 8, true, 0⟩,        -- FPGA_STATUS
   ⟨-1, 3, 0, false, 8, false, 0⟩,       -- FPGA_CTRL
   ⟨-1, 4, 0, false, 8, false, 0⟩,       -- HISTO_RAM_ADDR
   ⟨-1, 5, 0, false, 8, true, 0⟩,        -- HISTO_RAM_DATA
   ⟨-1, 6, 0, false, 16, false, 32000⟩,  -- HISTO_TEMPO
   ⟨-1, 8, 0, false, 16, false, 1000⟩,   -- HISTO_NB_READ
   ⟨-1, 10, 0, false, 32, true, 0⟩,      -- TIMESTAMP
   ⟨-1, 127, 0, false, 8, false, 0⟩]     -- SPI_MUX_CTRL

/-- Placeholder descriptor for guarded out-of-range lookups (never reached:
every lookup is behind the `register_id` range check, as in the C code). -/
def regDefault : LgwRegS := ⟨-1, 0, 0, false, 0, false, 0⟩

/-- `(uint8_t)reg_value`: low byte of an `int32_t`, two's complement. -/
def lowByte (v : Int) : Nat := (v % 256).toNat

/-- `reg_value >> 8` on `int32_t`: arithmetic right shift by one byte, which
is floor division by 256 (Lean's `Int` division by a positive divisor). -/
def asr8 (v : Int) : Int := v / 256

/-- The byte-splitting loop of the multi-byte write path: `buf[i] = low byte;
reg_value >>= 8`, repeated `size_byte` times (least-significant byte first). -/
def splitBytes : Nat → Int → List Nat
  | 0, _ => []
  | n + 1, v => lowByte v :: splitBytes n (asr8 v)

/-- `(int8_t)` reinterpretation of a byte (the `bufs = (int8_t *)bufu` cast). -/
def toInt8 (y : Nat) : Int := if y < 2 ^ 7 then (y : Int) else (y : Int) - 2 ^ 8

/-- `(int32_t)` reinterpretation of a `uint32_t`. -/
def toInt32 (y : Nat) : Int := if y < 2 ^ 31 then (y : Int) else (y : Int) - 2 ^ 32

/-- Arithmetic right shift of a signed value by `k` bits: floor division by
`2^k` (the C code's "ARITHMETIC right shift" on `int8_t` / `int32_t`). -/
def asr (v : Int) (k : Nat) : Int := v / 2 ^ k

/-- The reassembly loop of the multi-byte read path: `u = 0; for i from
size-1 down to 0: u = (uint32_t)bufu[i] + (u << 8)`, with `uint32_t`
wrap-around. -/
def assemble32 : Nat → List Nat → Nat
  | 0, _ => 0
  | n + 1, bs => (bs.getD 0 0 + ((assemble32 n (bs.drop 1)) <<< 8) % 2 ^ 32) % 2 ^ 32

/-- `buf[1] = ((1 << r.leng) - 1) << r.offs`, truncated to `uint8_t`. -/
def maskByte (L offs : Nat) : Nat := (((1 <<< L) - 1) <<< offs) % 256

/-- The read-modify-write mixing of the sub-byte write path:
`buf[2] = ((uint8_t)reg_value) << r.offs` (truncated to `uint8_t`) and
`buf[3] = (~buf[1] & buf[0]) | (buf[1] & buf[2])`, with `buf[0] < 256` so
the `int`-level complement acts as an 8-bit complement. -/
def rmwByte (old offs L : Nat) (v : Int) : Nat :=
  ((255 ^^^ maskByte L offs) &&& old) ||| (maskByte L offs &&& (((lowByte v) <<< offs) % 256))

/-- The sub-byte decode of the read path: left-align the field inside the
byte (`bufu[1] = bufu[0] << (8 - leng - offs)`, truncated to `uint8_t`),
then arithmetic (signed) or logical (unsigned) right shift by `8 - leng`. -/
def decodeSub (b0 L offs : Nat) (sg : Bool) : Int :=
  let bufu1 := (b0 <<< (8 - L - offs)) % 256
  if sg then asr (toInt8 bufu1) (8 - L) else ((bufu1 >>> (8 - L) : Nat) : Int)

/-- The multi-byte decode of the read path: left-align the reassembled
`uint32_t` and arithmetic-right-shift back when signed, or reinterpret the
word as `int32_t` unchanged when unsigned. -/
def decodeMulti (u L : Nat) (sg : Bool) : Int :=
  if sg then asr (toInt32 ((u <<< (32 - L)) % 2 ^ 32)) (32 - L) else toInt32 u

/-- `lgw_fpga_reg_w`: write to a register addressed by name.  `spi_target`
models the nullity of the global SPI handle (`true` = non-null); the result
is the updated device state, the trace of transport operations, and the
outcome (the branch taken; the C maps every error to `LGW_REG_ERROR`). -/
def lgw_fpga_reg_w {σ : Type} (ops : SpiOps σ) (regs : List LgwRegS)
    (spi_target : Bool) (s : σ) (register_id : Nat) (reg_value : Int) :
    σ × List SpiOp × Except RegErr Unit :=
  if regs.length ≤ register_id then (s, [], .error .invalidId)
  else if spi_target = false then (s, [], .error .notConnected)
  else
    let r := regs.getD register_id regDefault
    if r.rdon then (s, [], .error .readOnly)
    else if r.leng = 8 ∧ r.offs = 0 then
      -- direct write
      let p := ops.w s FPGA_SPI_MUX_FPGA_REG r.addr (lowByte reg_value)
      (p.1, [SpiOp.w spi_target FPGA_SPI_MUX_FPGA_REG r.addr (lowByte reg_value)],
        if p.2 then .ok () else .error .spiError)
    else if r.offs + r.leng ≤ 8 then
      -- single-byte read-modify-write
      let p := ops.r s FPGA_SPI_MUX_FPGA_REG r.addr
      let buf0 := p.2.getD 0
      let buf3 := rmwByte buf0 r.offs r.leng reg_value
      let q := ops.w p.1 FPGA_SPI_MUX_FPGA_REG r.addr buf3
      (q.1, [SpiOp.r spi_target FPGA_SPI_MUX_FPGA_REG r.addr,
             SpiOp.w spi_target FPGA_SPI_MUX_FPGA_REG r.addr buf3],
        if p.2.isSome ∧ q.2 then .ok () else .error .spiError)
    else if r.offs = 0 ∧ 0 < r.leng ∧ r.leng ≤ 32 then
      -- multi-byte direct write
      let size_byte := (r.leng + 7) / 8
      let bytes := splitBytes size_byte reg_value
      let p := ops.wb s FPGA_SPI_MUX_FPGA_REG r.addr bytes
      (p.1, [SpiOp.wb spi_target FPGA_SPI_MUX_FPGA_REG r.addr bytes],
        if p.2 then .ok () else .error .spiError)
    else (s, [], .error .unsupported)

/-- `lgw_fpga_reg_r`: read a register addressed by name.  `reg_value` is the
initial contents of the caller's `*reg_value`; the final `Int` component is
its contents after the call (the C writes through the pointer before
checking the accumulated SPI status). -/
def lgw_fpga_reg_r {σ : Type} (ops : SpiOps σ) (regs : List LgwRegS)
    (spi_target : Bool) (s : σ) (register_id : Nat) (reg_value : Int) :
    σ × List SpiOp × Except RegErr Unit × Int :=
  if regs.length ≤ register_id then (s, [], .error .invalidId, reg_value)
  else if spi_target = false then (s, [], .error .notConnected, reg_value)
  else
    let r := regs.getD register_id regDefault
    if r.offs + r.leng ≤ 8 then
      let p := ops.r s FPGA_SPI_MUX_FPGA_REG r.addr
      let bufu0 := p.2.getD 0
      (p.1, [SpiOp.r spi_target FPGA_SPI_MUX_FPGA_REG r.addr],
        (if p.2.isSome then .ok () else .error .spiError),
        decodeSub bufu0 r.leng r.offs r.sign)
    else if r.offs = 0 ∧ 0 < r.leng ∧ r.leng ≤ 32 then
      let size_byte := (r.leng + 7) / 8
      let p := ops.rb s FPGA_SPI_MUX_FPGA_REG r.addr size_byte
      let bufu := p.2.getD []
      (p.1, [SpiOp.rb spi_target FPGA_SPI_MUX_FPGA_REG r.addr size_byte],
        (if p.2.isSome then .ok () else .error .spiError),
        decodeMulti (assemble32 size_byte bufu) r.leng r.sign)
    else (s, [], .error .unsupported, reg_value)

/-- `lgw_fpga_reg_wb`: raw burst write to a register's base address.  The C
size parameter is the length of `data`; the NULL-pointer check has no
counterpart in the embedding. -/
def lgw_fpga_reg_wb {σ : Type} (ops : SpiOps σ) (regs : List LgwRegS)
    (spi_target : Bool) (s : σ) (register_id : Nat) (data : List Nat) :
    σ × List SpiOp × Except RegErr Unit :=
  if data.length = 0 then (s, [], .error .emptyBuffer)
  else if regs.length ≤ register_id then (s, [], .error .invalidId)
  else if spi_target = false then (s, [], .error .notConnected)
  else
    let r := regs.getD register_id regDefault
    if r.rdon then (s, [], .error .readOnly)
    else
      let p := ops.wb s FPGA_SPI_MUX_FPGA_REG r.addr data
      (p.1, [SpiOp.wb spi_target FPGA_SPI_MUX_FPGA_REG r.addr data],
        if p.2 then .ok () else .error .spiError)

/-- `lgw_fpga_reg_rb`: raw burst read from a register's base address. -/
def lgw_fpga_reg_rb {σ : Type} (ops : SpiOps σ) (regs : List LgwRegS)
    (spi_target : Bool) (s : σ) (register_id : Nat) (size : Nat) :
    σ × List SpiOp × Except RegErr Unit × List Nat :=
  if size = 0 then (s, [], .error .emptyBuffer, [])
  else if regs.length ≤ register_id then (s, [], .error .invalidId, [])
  else if spi_target = false then (s, [], .error .notConnected, [])
  else
    let r := regs.getD register_id regDefault
    let p := ops.rb s FPGA_SPI_MUX_FPGA_REG r.addr size
    (p.1, [SpiOp.rb spi_target FPGA_SPI_MUX_FPGA_REG r.addr size],
      (if p.2.isSome then .ok () else .error .spiError), p.2.getD [])

/-- `lgw_fpga_connect`.  `openOk` models the outcome of the external
`lgw_fpga_spi_open` (out of scope of this repository): on success the global
`spi_target` is set non-null; on failure the C leaves the pointer as it was.
If already connected the old handle is closed but the pointer is not cleared.
The returned `Bool` is the nullity of `spi_target` after the call. -/
def lgw_fpga_connect {σ : Type} (ops : SpiOps σ) (regs : List LgwRegS)
    (openOk : Bool) (spi_target : Bool) (s : σ) :
    Bool × σ × List SpiOp × Except RegErr Unit :=
  let tr0 := if spi_target then [SpiOp.closeLink] else []
  if openOk = false then (spi_target, s, tr0, .error .openFail)
  else
    let vreg := regs.getD LGW_FPGA_VERSION regDefault
    let p := ops.r s FPGA_SPI_MUX_FPGA_REG vreg.addr
    let tr := tr0 ++ [SpiOp.openLink, SpiOp.r true FPGA_SPI_MUX_FPGA_REG vreg.addr]
    match p.2 with
    | none => (true, p.1, tr, .error .spiError)
    | some u =>
      if u = 0 ∨ u = 255 then (true, p.1, tr, .error .deviceAbsent)
      else if (u : Int) ≠ vreg.dflt then (true, p.1, tr, .error .versionMismatch)
      else (true, p.1, tr, .ok ())

/-- `lgw_fpga_disconnect`. -/
def lgw_fpga_disconnect (spi_target : Bool) :
    Bool × List SpiOp × Except RegErr Unit :=
  if spi_target then (false, [SpiOp.closeLink], .ok ())
  else (spi_target, [], .error .alreadyDisconnected)

/-- `lgw_sx1272_reg_w`: SX1272 passthrough write.  No range, connection or
access check: the transport is invoked unconditionally with the current
handle (null when disconnected) and its status is returned directly. -/
def lgw_sx1272_reg_w {σ : Type} (ops : SpiOps σ) (spi_target : Bool) (s : σ)
    (address : Nat) (reg_value : Nat) : σ × List SpiOp × Except RegErr Unit :=
  let p := ops.w s FPGA_SPI_MUX_SX1272 address reg_value
  (p.1, [SpiOp.w spi_target FPGA_SPI_MUX_SX1272 address reg_value],
    if p.2 then .ok () else .error .spiError)

/-- `lgw_sx1272_reg_r`: SX1272 passthrough read, same shape as the write. -/
def lgw_sx1272_reg_r {σ : Type} (ops : SpiOps σ) (spi_target : Bool) (s : σ)
    (address : Nat) : σ × List SpiOp × Except RegErr Unit × Nat :=
  let p := ops.r s FPGA_SPI_MUX_SX1272 address
  (p.1, [SpiOp.r spi_target FPGA_SPI_MUX_SX1272 address],
    (if p.2.isSome then .ok () else .error .spiError), p.2.getD 0)

/-- Byte memory of a perfect transport: `mux → addr → byte`. -/
abbrev Mem := Nat → Nat → Nat

def memUpd (m : Mem) (mux addr val : Nat) : Mem :=
  fun mx a => if mx = mux ∧ a = addr then val % 256 else m mx a

def memUpdList (m : Mem) (mux addr : Nat) : List Nat → Mem
  | [] => m
  | b :: bs => memUpdList (memUpd m mux addr b) mux (addr + 1) bs

/-- A perfect transport: reads return the byte last written at the address
(an instance of "a transport that returns the bytes last written"). -/
def memOps : SpiOps Mem where
  r := fun m mux a => (m, some (m mux a % 256))
  w := fun m mux a v => (memUpd m mux a v, true)
  rb := fun m mux a n => (m, some ((List.range n).map fun i => m mux (a + i) % 256))
  wb := fun m mux a bs => (memUpdList m mux a bs, true)

/-- A transport whose every operation fails (`LGW_SPI_ERROR`). -/
def failOps : SpiOps Unit where
  r := fun s _ _ => (s, none)
  w := fun s _ _ _ => (s, false)
  rb := fun s _ _ _ => (s, none)
  wb := fun s _ _ _ => (s, false)

/-- All-zero initial memory. -/
def mem0 : Mem := fun _ _ => 0

/-- Little-endian valuation of a byte list (used to state what the wire
format of a multi-byte burst encodes). -/
def leVal : List Nat → Nat
  | [] => 0
  | b :: bs => b + 256 * leVal bs

/-- Reinterpretation of a `W`-bit pattern as a two's-complement signed value
(generalisation of `toInt8` / `toInt32`). -/
def wToInt (W y : Nat) : Int := if y < 2 ^ (W - 1) then (y : Int) else (y : Int) - 2 ^ W

/-- Two's-complement interpretation of an `L`-bit pattern `p < 2^L`. -/
def sext (L : Nat) (p : Nat) : Int :=
  if p < 2 ^ (L - 1) then (p : Int) else (p : Int) - 2 ^ L

/-- What the marshaling engine actually hands back after a round trip of an
`int32` value `v` through a field described by `d` (over a perfect
transport): the sign-extended low `leng` bits for signed fields; the low
`leng` bits for unsigned sub-byte fields; and for unsigned multi-byte fields
the low `8*ceil(leng/8)` bits, reinterpreted as an `int32`. -/
def expectedRead (d : LgwRegS) (v : Int) : Int :=
  if d.sign then sext d.leng ((v % 2 ^ d.leng).toNat)
  else if d.offs + d.leng ≤ 8 then ((v % 2 ^ d.leng).toNat : Int)
  else toInt32 ((v % 2 ^ (8 * ((d.leng + 7) / 8))).toNat)

/-! ### Arithmetic helper lemmas -/

lemma lowByte_lt (v : Int) : lowByte v < 256 := by
  unfold lowByte
  have h := Int.emod_lt_of_pos v (b := 256) (by norm_num)
  have h0 := Int.emod_nonneg v (b := 256) (by norm_num)
  omega

lemma int_toNat_mod (a : Int) (ha : 0 ≤ a) (n : Nat) :
    a.toNat % n = (a % (n : Int)).toNat := by
  have h1 : ((a.toNat % n : Nat) : Int) = a % (n : Int) := by
    push_cast [Int.toNat_of_nonneg ha]
    ring
  omega

lemma toNat_emod_pow_le (v : Int) (k m : Nat) (hkm : k ≤ m) :
    (v % 2 ^ k).toNat = ((v % 2 ^ m).toNat) % 2 ^ k := by
  have hdvd : ((2 : Int) ^ k) ∣ 2 ^ m := pow_dvd_pow 2 hkm
  have h1 : v % 2 ^ m % 2 ^ k = v % 2 ^ k := Int.emod_emod_of_dvd v hdvd
  have h0 : 0 ≤ v % 2 ^ m := Int.emod_nonneg v (by positivity)
  rw [int_toNat_mod _ h0]
  congr 1
  push_cast
  rw [h1]

lemma lowByte_mod_pow (v : Int) (L : Nat) (hL : L ≤ 8) :
    lowByte v % 2 ^ L = (v % 2 ^ L).toNat := by
  have h : lowByte v = (v % 2 ^ 8).toNat := by norm_num [lowByte]
  rw [h, ← toNat_emod_pow_le v L 8 hL]

lemma asr_natCast (y k : Nat) : asr (y : Int) k = ((y / 2 ^ k : Nat) : Int) := by
  unfold asr
  rw [Int.natCast_div]
  push_cast
  ring_nf

lemma wToInt_asr (W L c f : Nat) (hL : 1 ≤ L) (hLW : L ≤ W)
    (hc : c < 2 ^ (W - L)) (hf : f < 2 ^ L) :
    asr (wToInt W (c + f * 2 ^ (W - L))) (W - L) = sext L f := by
  have hsplit : (2 : Nat) ^ (W - 1) = 2 ^ (L - 1) * 2 ^ (W - L) := by
    rw [← pow_add]; congr 1; omega
  unfold wToInt sext
  by_cases hcase : f < 2 ^ (L - 1)
  · have hy : c + f * 2 ^ (W - L) < 2 ^ (W - 1) := by
      rw [hsplit]
      have h1 : (f + 1) * 2 ^ (W - L) ≤ 2 ^ (L - 1) * 2 ^ (W - L) :=
        Nat.mul_le_mul_right _ (by omega)
      have h2 : (f + 1) * 2 ^ (W - L) = f * 2 ^ (W - L) + 2 ^ (W - L) := by ring
      omega
    rw [if_pos hy, if_pos hcase, asr_natCast]
    rw [Nat.add_mul_div_right _ _ (by positivity), Nat.div_eq_of_lt hc]
    norm_num
  · have hy : ¬ (c + f * 2 ^ (W - L) < 2 ^ (W - 1)) := by
      rw [hsplit]
      push_neg
      have h1 : 2 ^ (L - 1) * 2 ^ (W - L) ≤ f * 2 ^ (W - L) :=
        Nat.mul_le_mul_right _ (by omega)
      omega
    rw [if_neg hy, if_neg hcase]
    unfold asr
    have hWi : ((2 : Int)) ^ W = 2 ^ L * 2 ^ (W - L) := by
      rw [← pow_add]; congr 1; omega
    have hv : (↑(c + f * 2 ^ (W - L)) : Int) - 2 ^ W =
        (c : Int) + ((f : Int) - 2 ^ L) * 2 ^ (W - L) := by
      push_cast
      rw [hWi]
      ring
    rw [hv, Int.add_mul_ediv_right _ _ (by positivity : (0:Int) < 2 ^ (W - L)).ne']
    rw [Int.ediv_eq_zero_of_lt (by positivity) (by exact_mod_cast hc)]
    ring

lemma sext_range (L p : Nat) (hL : 1 ≤ L) (hp : p < 2 ^ L) :
    -(2 ^ (L - 1) : Int) ≤ sext L p ∧ sext L p ≤ 2 ^ (L - 1) - 1 := by
  have h2 : (2 : Nat) ^ L = 2 * 2 ^ (L - 1) := by
    rw [← pow_succ']
    congr 1
    omega
  unfold sext
  by_cases hcase : p < 2 ^ (L - 1)
  · rw [if_pos hcase]
    have hp0 : (0 : Int) ≤ (p : Int) := by positivity
    have hpl : ((p : Int)) < 2 ^ (L - 1) := by exact_mod_cast hcase
    have hge : (0 : Int) ≤ (2 : Int) ^ (L - 1) := by positivity
    constructor <;> linarith
  · rw [if_neg hcase]
    have h1 : (2 : Int) ^ (L - 1) ≤ (p : Int) := by exact_mod_cast Nat.le_of_not_lt hcase
    have h2i : ((p : Int)) < 2 ^ L := by exact_mod_cast hp
    have h3 : ((2 : Int) ^ L) = 2 * 2 ^ (L - 1) := by exact_mod_cast h2
    constructor <;> linarith

/-! ### Bit-level lemmas for the sub-byte paths -/

lemma byte255_testBit (i : Nat) : (255 : Nat).testBit i = decide (i < 8) := by
  have h : (255 : Nat) = 2 ^ 8 - 1 := by norm_num
  rw [h, Nat.testBit_two_pow_sub_one]

lemma maskByte_eq (L offs : Nat) (h : offs + L ≤ 8) :
    maskByte L offs = (2 ^ L - 1) * 2 ^ offs := by
  unfold maskByte
  rw [Nat.shiftLeft_eq, Nat.shiftLeft_eq, one_mul]
  apply Nat.mod_eq_of_lt
  have h1 : (0 : Nat) < 2 ^ L := by positivity
  calc (2 ^ L - 1) * 2 ^ offs < 2 ^ L * 2 ^ offs :=
        mul_lt_mul_of_pos_right (by omega) (by positivity)
    _ = 2 ^ (L + offs) := by rw [← pow_add]
    _ ≤ 256 := by
        have h2 : (256 : Nat) = 2 ^ 8 := by norm_num
        rw [h2]
        exact Nat.pow_le_pow_right (by norm_num) (by omega)

lemma maskByte_testBit (L offs i : Nat) (h : offs + L ≤ 8) :
    (maskByte L offs).testBit i = decide (offs ≤ i ∧ i < offs + L) := by
  rw [maskByte_eq L offs h, ← Nat.shiftLeft_eq, Nat.testBit_shiftLeft,
    Nat.testBit_two_pow_sub_one]
  by_cases h1 : offs ≤ i
  · simp only [ge_iff_le, h1, decide_True, Bool.true_and, decide_eq_decide, true_and]
    omega
  · simp only [ge_iff_le, h1, decide_False, Bool.false_and, false_and]

lemma rmwByte_lt (old offs L : Nat) (v : Int) (hold : old < 256) :
    rmwByte old offs L v < 256 := by
  unfold rmwByte
  have h256 : (256 : Nat) = 2 ^ 8 := by norm_num
  rw [h256]
  apply Nat.or_lt_two_pow
  · exact lt_of_le_of_lt Nat.and_le_right (by omega)
  · exact lt_of_le_of_lt Nat.and_le_right (by omega)

lemma rmwByte_testBit_outside (old offs L : Nat) (v : Int) (i : Nat)
    (h : offs + L ≤ 8) (hold : old < 256)
    (hm : (maskByte L offs).testBit i = false) :
    (rmwByte old offs L v).testBit i = old.testBit i := by
  unfold rmwByte
  rw [Nat.testBit_lor, Nat.testBit_land, Nat.testBit_land, Nat.testBit_xor, hm,
    byte255_testBit]
  by_cases hi : i < 8
  · simp [hi]
  · have h8 : (2 : Nat) ^ 8 ≤ 2 ^ i := Nat.pow_le_pow_right (by norm_num) (by omega)
    have hbit : old.testBit i = false := Nat.testBit_lt_two_pow (by omega)
    simp [hi, hbit]

lemma rmwByte_testBit_inside (old offs L : Nat) (v : Int) (i : Nat)
    (h : offs + L ≤ 8)
    (hm : (maskByte L offs).testBit i = true) :
    (rmwByte old offs L v).testBit i = (((lowByte v) <<< offs) % 256).testBit i := by
  have hrange : offs ≤ i ∧ i < offs + L := by
    have := (maskByte_testBit L offs i h) ▸ hm
    exact of_decide_eq_true this
  unfold rmwByte
  rw [Nat.testBit_lor, Nat.testBit_land, Nat.testBit_land, Nat.testBit_xor, hm,
    byte255_testBit]
  have hi : i < 8 := by omega
  simp [hi]

lemma shiftLeft_mod_two_pow (b s W : Nat) (h : s ≤ W) :
    (b <<< s) % 2 ^ W = (b % 2 ^ (W - s)) * 2 ^ s := by
  rw [Nat.shiftLeft_eq]
  have hW : (2 : Nat) ^ W = 2 ^ (W - s) * 2 ^ s := by
    rw [← pow_add]; congr 1; omega
  rw [hW, Nat.mul_mod_mul_right]

lemma rmwByte_field (old offs L : Nat) (v : Int) (h : offs + L ≤ 8) :
    ((rmwByte old offs L v) >>> offs) % 2 ^ L = lowByte v % 2 ^ L := by
  apply Nat.eq_of_testBit_eq
  intro i
  rw [Nat.testBit_mod_two_pow, Nat.testBit_mod_two_pow, Nat.testBit_shiftRight]
  by_cases hi : i < L
  · simp only [hi, decide_True, Bool.true_and]
    have hm : (maskByte L offs).testBit (offs + i) = true := by
      rw [maskByte_testBit L offs _ h]
      simp only [decide_eq_true_eq]
      omega
    rw [rmwByte_testBit_inside old offs L v _ h hm]
    have h256 : (256 : Nat) = 2 ^ 8 := by norm_num
    rw [h256, Nat.testBit_mod_two_pow, Nat.testBit_shiftLeft]
    have hi8 : offs + i < 8 := by omega
    have hge : offs + i ≥ offs := by omega
    simp only [hi8, decide_True, Bool.true_and, ge_iff_le, Nat.le_add_right,
      Nat.add_sub_cancel_left]
  · simp only [hi, decide_False, Bool.false_and]

lemma decodeSub_unsigned (b L offs : Nat) (h : offs + L ≤ 8) :
    decodeSub b L offs false = (((b >>> offs) % 2 ^ L : Nat) : Int) := by
  unfold decodeSub
  simp only [Bool.false_eq_true, if_false]
  congr 1
  have h256 : (256 : Nat) = 2 ^ 8 := by norm_num
  rw [h256, shiftLeft_mod_two_pow _ _ _ (by omega)]
  have e1 : 8 - (8 - L - offs) = offs + L := by omega
  rw [e1, Nat.shiftRight_eq_div_pow, Nat.shiftRight_eq_div_pow]
  have e2 : (2 : Nat) ^ (8 - L) = 2 ^ offs * 2 ^ (8 - L - offs) := by
    rw [← pow_add]; congr 1; omega
  rw [e2]
  rw [Nat.mul_div_mul_right _ _ (by positivity : (0:Nat) < 2 ^ (8 - L - offs))]
  rw [Nat.div_mod_eq_mod_mul_div, ← pow_add]

lemma decodeSub_signed (b L offs : Nat) (h : offs + L ≤ 8) (hL : 1 ≤ L) :
    decodeSub b L offs true = sext L ((b >>> offs) % 2 ^ L) := by
  unfold decodeSub
  simp only [if_true]
  have h256 : (256 : Nat) = 2 ^ 8 := by norm_num
  have e0 : (b <<< (8 - L - offs)) % 256 =
      (b % 2 ^ offs) * 2 ^ (8 - L - offs) + ((b >>> offs) % 2 ^ L) * 2 ^ (8 - L) := by
    rw [h256, shiftLeft_mod_two_pow _ _ _ (by omega)]
    have e1 : 8 - (8 - L - offs) = offs + L := by omega
    rw [e1]
    have e2 : (2 : Nat) ^ (offs + L) = 2 ^ offs * 2 ^ L := by rw [pow_add]
    rw [e2, Nat.mod_mul, Nat.shiftRight_eq_div_pow]
    have e3 : (2 : Nat) ^ (8 - L) = 2 ^ offs * 2 ^ (8 - L - offs) := by
      rw [← pow_add]; congr 1; omega
    rw [e3]
    ring
  rw [e0]
  have hto : toInt8 = wToInt 8 := by
    funext y
    simp [toInt8, wToInt]
  rw [hto]
  exact wToInt_asr 8 L _ _ hL (by omega)
    (by
      have h1 : b % 2 ^ offs < 2 ^ offs := Nat.mod_lt _ (by positivity)
      have e3 : (2 : Nat) ^ (8 - L) = 2 ^ offs * 2 ^ (8 - L - offs) := by
        rw [← pow_add]; congr 1; omega
      rw [e3]
      exact mul_lt_mul_of_pos_right h1 (by positivity))
    (Nat.mod_lt _ (by positivity))

lemma decodeMulti_unsigned (u L : Nat) : decodeMulti u L false = toInt32 u := rfl

lemma decodeMulti_signed (u L : Nat) (hL : 1 ≤ L) (hL32 : L ≤ 32) :
    decodeMulti u L true = sext L (u % 2 ^ L) := by
  unfold decodeMulti
  simp only [if_true]
  have e0 : (u <<< (32 - L)) % 2 ^ 32 = 0 + (u % 2 ^ L) * 2 ^ (32 - L) := by
    rw [shiftLeft_mod_two_pow _ _ _ (by omega)]
    have e1 : 32 - (32 - L) = L := by omega
    rw [e1]
    ring
  rw [e0]
  have hto : toInt32 = wToInt 32 := by
    funext y
    simp [toInt32, wToInt]
  rw [hto]
  exact wToInt_asr 32 L 0 (u % 2 ^ L) hL hL32 (by positivity)
    (Nat.mod_lt _ (by positivity))

/-! ### Multi-byte marshaling lemmas -/

lemma emod_mul_decomp (v : Int) (M : Nat) (hM : 0 < M) :
    v % (256 * (M : Int)) = v % 256 + 256 * ((v / 256) % M) := by
  have hMi : (0 : Int) < (M : Int) := by exact_mod_cast hM
  have hr0 : (0 : Int) ≤ v % 256 := Int.emod_nonneg v (by norm_num)
  have hr1 : v % 256 < 256 := Int.emod_lt_of_pos v (by norm_num)
  have hq0 : (0 : Int) ≤ (v / 256) % M := Int.emod_nonneg _ hMi.ne'
  have hq1 : (v / 256) % M < M := Int.emod_lt_of_pos _ hMi
  conv_lhs => rw [← Int.ediv_add_emod v 256]
  rw [Int.add_emod, Int.mul_emod_mul_of_pos _ _ (by norm_num : (0:Int) < 256)]
  rw [Int.emod_eq_of_lt hr0 (by nlinarith)]
  rw [Int.emod_eq_of_lt (by positivity) (by nlinarith)]
  ring

lemma splitBytes_length (n : Nat) (v : Int) : (splitBytes n v).length = n := by
  induction n generalizing v with
  | zero => rfl
  | succ n ih => simp [splitBytes, ih]

lemma splitBytes_mem_lt (n : Nat) (v : Int) :
    ∀ b ∈ splitBytes n v, b < 256 := by
  induction n generalizing v with
  | zero => intro b hb; simp [splitBytes] at hb
  | succ n ih =>
    intro b hb
    simp only [splitBytes, List.mem_cons] at hb
    rcases hb with hb | hb
    · rw [hb]; exact lowByte_lt v
    · exact ih (asr8 v) b hb

lemma leVal_splitBytes (n : Nat) (v : Int) :
    leVal (splitBytes n v) = (v % 2 ^ (8 * n)).toNat := by
  induction n generalizing v with
  | zero => simp [splitBytes, leVal]
  | succ n ih =>
    show leVal (lowByte v :: splitBytes n (asr8 v)) = _
    rw [leVal, ih]
    have hdec := emod_mul_decomp v (2 ^ (8 * n)) (by positivity)
    have hpow : (2 : Int) ^ (8 * (n + 1)) = 256 * ((2 ^ (8 * n) : Nat) : Int) := by
      push_cast
      have h1 : 8 * (n + 1) = 8 + 8 * n := by ring
      rw [h1, pow_add]
      norm_num
    rw [hpow]
    have hx : (0 : Int) ≤ v % 256 := Int.emod_nonneg v (by norm_num)
    have hy : (0 : Int) ≤ (v / 256) % ((2 ^ (8 * n) : Nat) : Int) :=
      Int.emod_nonneg _ (by positivity)
    push_cast at hdec hy ⊢
    unfold lowByte asr8
    omega

lemma leVal_lt (bs : List Nat) (h : ∀ b ∈ bs, b < 256) :
    leVal bs < 2 ^ (8 * bs.length) := by
  induction bs with
  | nil => simp [leVal]
  | cons b bs ih =>
    have hb : b < 256 := h b (by simp)
    have ih2 : leVal bs < 2 ^ (8 * bs.length) := ih (fun x hx => h x (by simp [hx]))
    rw [leVal]
    have hpow : (2 : Nat) ^ (8 * (b :: bs).length) = 256 * 2 ^ (8 * bs.length) := by
      simp only [List.length_cons]
      have h1 : 8 * (bs.length + 1) = 8 + 8 * bs.length := by ring
      rw [h1, pow_add]
      norm_num
    rw [hpow]
    have h2 : 256 * leVal bs ≤ 256 * (2 ^ (8 * bs.length) - 1) := by
      apply Nat.mul_le_mul_left
      omega
    have h3 : (0 : Nat) < 2 ^ (8 * bs.length) := by positivity
    omega

lemma assemble32_eq (n : Nat) (bs : List Nat) (hn : 8 * n ≤ 32)
    (hb : ∀ b ∈ bs, b < 256) (hlen : n ≤ bs.length) :
    assemble32 n bs = leVal (bs.take n) := by
  induction n generalizing bs with
  | zero => simp [assemble32, leVal]
  | succ n ih =>
    cases bs with
    | nil => simp at hlen
    | cons b bs =>
      have hb0 : b < 256 := hb b (by simp)
      have hbs : ∀ x ∈ bs, x < 256 := fun x hx => hb x (by simp [hx])
      have hlen2 : n ≤ bs.length := by
        simp only [List.length_cons] at hlen
        omega
      have ih2 : assemble32 n bs = leVal (bs.take n) := ih bs (by omega) hbs hlen2
      show (b + ((assemble32 n bs) <<< 8) % 2 ^ 32) % 2 ^ 32 = leVal (b :: bs.take n)
      have htake : ∀ x ∈ bs.take n, x < 256 := fun x hx => hbs x (List.mem_of_mem_take hx)
      have hlt : leVal (bs.take n) < 2 ^ (8 * n) := by
        have h1 := leVal_lt (bs.take n) htake
        have h2 : (bs.take n).length = n := by
          rw [List.length_take]
          omega
        rwa [h2] at h1
      rw [ih2, Nat.shiftLeft_eq]
      have h32 : leVal (bs.take n) * 2 ^ 8 < 2 ^ 32 := by
        have h1 : leVal (bs.take n) * 2 ^ 8 < 2 ^ (8 * n) * 2 ^ 8 :=
          mul_lt_mul_of_pos_right hlt (by positivity)
        have h2 : (2 : Nat) ^ (8 * n) * 2 ^ 8 = 2 ^ (8 * n + 8) := by rw [← pow_add]
        have h3 : (2 : Nat) ^ (8 * n + 8) ≤ 2 ^ 32 :=
          Nat.pow_le_pow_right (by norm_num) (by omega)
        omega
      rw [Nat.mod_eq_of_lt h32]
      have hsum : b + leVal (bs.take n) * 2 ^ 8 < 2 ^ 32 := by
        have h1 : leVal (bs.take n) * 2 ^ 8 ≤ (2 ^ (8 * n) - 1) * 2 ^ 8 := by
          apply Nat.mul_le_mul_right
          omega
        have h2 : (2 ^ (8 * n) - 1) * 2 ^ 8 = 2 ^ (8 * n) * 2 ^ 8 - 2 ^ 8 := by
          rw [Nat.sub_mul, one_mul]
        have h3 : (2 : Nat) ^ (8 * n) * 2 ^ 8 = 2 ^ (8 * n + 8) := by rw [← pow_add]
        have h4 : (2 : Nat) ^ (8 * n + 8) ≤ 2 ^ 32 :=
          Nat.pow_le_pow_right (by norm_num) (by omega)
        have h5 : (0:Nat) < 2 ^ (8 * n) := by positivity
        omega
      rw [Nat.mod_eq_of_lt hsum, leVal]
      ring

/-! ### Memory-transport lemmas -/

lemma memUpdList_lower (bs : List Nat) (m : Mem) (mux addr mx a : Nat)
    (h : mx ≠ mux ∨ a < addr) :
    memUpdList m mux addr bs mx a = m mx a := by
  induction bs generalizing m addr with
  | nil => rfl
  | cons b bs ih =>
    show memUpdList (memUpd m mux addr b) mux (addr + 1) bs mx a = m mx a
    rw [ih (memUpd m mux addr b) (addr + 1) (by omega)]
    unfold memUpd
    rw [if_neg (by omega)]

lemma memUpdList_read (bs : List Nat) (m : Mem) (mux addr i : Nat)
    (h : i < bs.length) :
    memUpdList m mux addr bs mux (addr + i) = bs.getD i 0 % 256 := by
  induction bs generalizing m addr i with
  | nil => simp at h
  | cons b bs ih =>
    cases i with
    | zero =>
      show memUpdList (memUpd m mux addr b) mux (addr + 1) bs mux (addr + 0) = b % 256
      rw [memUpdList_lower bs _ mux (addr + 1) mux (addr + 0) (by omega)]
      unfold memUpd
      rw [if_pos (by omega)]
    | succ i =>
      show memUpdList (memUpd m mux addr b) mux (addr + 1) bs mux (addr + (i + 1)) =
        bs.getD i 0 % 256
      have e : addr + (i + 1) = (addr + 1) + i := by omega
      rw [e, ih (memUpd m mux addr b) (addr + 1) i (by simpa using Nat.lt_of_succ_lt_succ (by simpa using h))]

lemma range_map_getD (l : List Nat) :
    (List.range l.length).map (fun i => l.getD i 0) = l := by
  induction l with
  | nil => rfl
  | cons b bs ih =>
    show (List.range (bs.length + 1)).map (fun i => (b :: bs).getD i 0) = b :: bs
    rw [List.range_succ_eq_map, List.map_cons, List.map_map]
    have h1 : ((fun i => (b :: bs).getD i 0) ∘ Nat.succ) = (fun i => bs.getD i 0) := by
      funext i
      rfl
    rw [h1, ih]
    rfl

/-! ### Branch-evaluation lemmas for the register operations -/

lemma reg_w_branch_direct {σ : Type} (ops : SpiOps σ) (regs : List LgwRegS)
    (s : σ) (id : Nat) (v : Int) (d : LgwRegS)
    (hid : id < regs.length) (hd : regs.getD id regDefault = d)
    (hro : d.rdon = false) (h8 : d.leng = 8) (h0 : d.offs = 0) :
    lgw_fpga_reg_w ops regs true s id v =
      ((ops.w s FPGA_SPI_MUX_FPGA_REG d.addr (lowByte v)).1,
       [SpiOp.w true FPGA_SPI_MUX_FPGA_REG d.addr (lowByte v)],
       if (ops.w s FPGA_SPI_MUX_FPGA_REG d.addr (lowByte v)).2 then Except.ok ()
       else Except.error RegErr.spiError) := by
  have h1 : ¬ regs.length ≤ id := by omega
  simp only [lgw_fpga_reg_w, h1, if_false, hd, hro, h8, h0, and_self, if_true,
    Bool.false_eq_true, Bool.true_eq_false]

lemma reg_w_branch_rmw {σ : Type} (ops : SpiOps σ) (regs : List LgwRegS)
    (s : σ) (id : Nat) (v : Int) (d : LgwRegS)
    (hid : id < regs.length) (hd : regs.getD id regDefault = d)
    (hro : d.rdon = false) (hn8 : ¬ (d.leng = 8 ∧ d.offs = 0))
    (hsub : d.offs + d.leng ≤ 8) :
    lgw_fpga_reg_w ops regs true s id v =
      ((ops.w (ops.r s FPGA_SPI_MUX_FPGA_REG d.addr).1 FPGA_SPI_MUX_FPGA_REG d.addr
          (rmwByte ((ops.r s FPGA_SPI_MUX_FPGA_REG d.addr).2.getD 0) d.offs d.leng v)).1,
       [SpiOp.r true FPGA_SPI_MUX_FPGA_REG d.addr,
        SpiOp.w true FPGA_SPI_MUX_FPGA_REG d.addr
          (rmwByte ((ops.r s FPGA_SPI_MUX_FPGA_REG d.addr).2.getD 0) d.offs d.leng v)],
       if (ops.r s FPGA_SPI_MUX_FPGA_REG d.addr).2.isSome ∧
           (ops.w (ops.r s FPGA_SPI_MUX_FPGA_REG d.addr).1 FPGA_SPI_MUX_FPGA_REG d.addr
             (rmwByte ((ops.r s FPGA_SPI_MUX_FPGA_REG d.addr).2.getD 0) d.offs d.leng v)).2
         then Except.ok () else Except.error RegErr.spiError) := by
  have h1 : ¬ regs.length ≤ id := by omega
  simp only [lgw_fpga_reg_w, h1, if_false, hd, hro, hn8, hsub, if_true,
    Bool.false_eq_true, Bool.true_eq_false]

lemma reg_w_branch_multi {σ : Type} (ops : SpiOps σ) (regs : List LgwRegS)
    (s : σ) (id : Nat) (v : Int) (d : LgwRegS)
    (hid : id < regs.length) (hd : regs.getD id regDefault = d)
    (hro : d.rdon = false) (ho : d.offs = 0) (hgt : 8 < d.leng) (hl32 : d.leng ≤ 32) :
    lgw_fpga_reg_w ops regs true s id v =
      ((ops.wb s FPGA_SPI_MUX_FPGA_REG d.addr (splitBytes ((d.leng + 7) / 8) v)).1,
       [SpiOp.wb true FPGA_SPI_MUX_FPGA_REG d.addr (splitBytes ((d.leng + 7) / 8) v)],
       if (ops.wb s FPGA_SPI_MUX_FPGA_REG d.addr (splitBytes ((d.leng + 7) / 8) v)).2
         then Except.ok () else Except.error RegErr.spiError) := by
  have h1 : ¬ regs.length ≤ id := by omega
  have h2 : ¬ d.leng = 8 := by omega
  have h3 : ¬ d.leng ≤ 8 := by omega
  have h4 : 0 < d.leng := by omega
  simp only [lgw_fpga_reg_w, h1, if_false, hd, hro, ho, h2, h3, h4, hl32,
    and_self, and_true, true_and, and_false, false_and, zero_add, if_true,
    Bool.false_eq_true, Bool.true_eq_false]

lemma reg_r_branch_sub {σ : Type} (ops : SpiOps σ) (regs : List LgwRegS)
    (s : σ) (id : Nat) (v0 : Int) (d : LgwRegS)
    (hid : id < regs.length) (hd : regs.getD id regDefault = d)
    (hsub : d.offs + d.leng ≤ 8) :
    lgw_fpga_reg_r ops regs true s id v0 =
      ((ops.r s FPGA_SPI_MUX_FPGA_REG d.addr).1,
       [SpiOp.r true FPGA_SPI_MUX_FPGA_REG d.addr],
       (if (ops.r s FPGA_SPI_MUX_FPGA_REG d.addr).2.isSome then Except.ok ()
        else Except.error RegErr.spiError),
       decodeSub ((ops.r s FPGA_SPI_MUX_FPGA_REG d.addr).2.getD 0) d.leng d.offs d.sign) := by
  have h1 : ¬ regs.length ≤ id := by omega
  simp only [lgw_fpga_reg_r, h1, if_false, hd, hsub, if_true,
    Bool.false_eq_true, Bool.true_eq_false]

lemma reg_r_branch_multi {σ : Type} (ops : SpiOps σ) (regs : List LgwRegS)
    (s : σ) (id : Nat) (v0 : Int) (d : LgwRegS)
    (hid : id < regs.length) (hd : regs.getD id regDefault = d)
    (ho : d.offs = 0) (hgt : 8 < d.leng) (hl32 : d.leng ≤ 32) :
    lgw_fpga_reg_r ops regs true s id v0 =
      ((ops.rb s FPGA_SPI_MUX_FPGA_REG d.addr ((d.leng + 7) / 8)).1,
       [SpiOp.rb true FPGA_SPI_MUX_FPGA_REG d.addr ((d.leng + 7) / 8)],
       (if (ops.rb s FPGA_SPI_MUX_FPGA_REG d.addr ((d.leng + 7) / 8)).2.isSome
        then Except.ok () else Except.error RegErr.spiError),
       decodeMulti
         (assemble32 ((d.leng + 7) / 8)
           ((ops.rb s FPGA_SPI_MUX_FPGA_REG d.addr ((d.leng + 7) / 8)).2.getD []))
         d.leng d.sign) := by
  have h1 : ¬ regs.length ≤ id := by omega
  have h3 : ¬ d.leng ≤ 8 := by omega
  have h4 : 0 < d.leng := by omega
  simp only [lgw_fpga_reg_r, h1, if_false, hd, ho, h3, h4, hl32,
    and_self, and_true, true_and, zero_add, if_true,
    Bool.false_eq_true, Bool.true_eq_false]

/-! ### Specialisations to the perfect in-memory transport -/

lemma reg_w_mem_direct (regs : List LgwRegS) (mem : Mem) (id : Nat) (v : Int)
    (d : LgwRegS) (hid : id < regs.length) (hd : regs.getD id regDefault = d)
    (hro : d.rdon = false) (h8 : d.leng = 8) (h0 : d.offs = 0) :
    lgw_fpga_reg_w memOps regs true mem id v =
      (memUpd mem FPGA_SPI_MUX_FPGA_REG d.addr (lowByte v),
       [SpiOp.w true FPGA_SPI_MUX_FPGA_REG d.addr (lowByte v)], Except.ok ()) := by
  rw [reg_w_branch_direct memOps regs mem id v d hid hd hro h8 h0]
  rfl

lemma reg_w_mem_rmw (regs : List LgwRegS) (mem : Mem) (id : Nat) (v : Int)
    (d : LgwRegS) (hid : id < regs.length) (hd : regs.getD id regDefault = d)
    (hro : d.rdon = false) (hn8 : ¬ (d.leng = 8 ∧ d.offs = 0))
    (hsub : d.offs + d.leng ≤ 8) :
    lgw_fpga_reg_w memOps regs true mem id v =
      (memUpd mem FPGA_SPI_MUX_FPGA_REG d.addr
         (rmwByte (mem FPGA_SPI_MUX_FPGA_REG d.addr % 256) d.offs d.leng v),
       [SpiOp.r true FPGA_SPI_MUX_FPGA_REG d.addr,
        SpiOp.w true FPGA_SPI_MUX_FPGA_REG d.addr
          (rmwByte (mem FPGA_SPI_MUX_FPGA_REG d.addr % 256) d.offs d.leng v)],
       Except.ok ()) := by
  rw [reg_w_branch_rmw memOps regs mem id v d hid hd hro hn8 hsub]
  rfl

lemma reg_w_mem_multi (regs : List LgwRegS) (mem : Mem) (id : Nat) (v : Int)
    (d : LgwRegS) (hid : id < regs.length) (hd : regs.getD id regDefault = d)
    (hro : d.rdon = false) (ho : d.offs = 0) (hgt : 8 < d.leng) (hl32 : d.leng ≤ 32) :
    lgw_fpga_reg_w memOps regs true mem id v =
      (memUpdList mem FPGA_SPI_MUX_FPGA_REG d.addr (splitBytes ((d.leng + 7) / 8) v),
       [SpiOp.wb true FPGA_SPI_MUX_FPGA_REG d.addr (splitBytes ((d.leng + 7) / 8) v)],
       Except.ok ()) := by
  rw [reg_w_branch_multi memOps regs mem id v d hid hd hro ho hgt hl32]
  rfl

lemma reg_r_mem_sub (regs : List LgwRegS) (mem : Mem) (id : Nat) (v0 : Int)
    (d : LgwRegS) (hid : id < regs.length) (hd : regs.getD id regDefault = d)
    (hsub : d.offs + d.leng ≤ 8) :
    lgw_fpga_reg_r memOps regs true mem id v0 =
      (mem, [SpiOp.r true FPGA_SPI_MUX_FPGA_REG d.addr], Except.ok (),
       decodeSub (mem FPGA_SPI_MUX_FPGA_REG d.addr % 256) d.leng d.offs d.sign) := by
  rw [reg_r_branch_sub memOps regs mem id v0 d hid hd hsub]
  rfl

lemma reg_r_mem_multi (regs : List LgwRegS) (mem : Mem) (id : Nat) (v0 : Int)
    (d : LgwRegS) (hid : id < regs.length) (hd : regs.getD id regDefault = d)
    (ho : d.offs = 0) (hgt : 8 < d.leng) (hl32 : d.leng ≤ 32) :
    lgw_fpga_reg_r memOps regs true mem id v0 =
      (mem, [SpiOp.rb true FPGA_SPI_MUX_FPGA_REG d.addr ((d.leng + 7) / 8)],
       Except.ok (),
       decodeMulti
         (assemble32 ((d.leng + 7) / 8)
           ((List.range ((d.leng + 7) / 8)).map
             fun i => mem FPGA_SPI_MUX_FPGA_REG (d.addr + i) % 256))
         d.leng d.sign) := by
  rw [reg_r_branch_multi memOps regs mem id v0 d hid hd ho hgt hl32]
  rfl

lemma decodeSub_expected (d : LgwRegS) (v : Int) (B : Nat)
    (hL : 1 ≤ d.leng) (hsub : d.offs + d.leng ≤ 8)
    (hfield : (B >>> d.offs) % 2 ^ d.leng = (v % 2 ^ d.leng).toNat) :
    decodeSub B d.leng d.offs d.sign = expectedRead d v := by
  cases hs : d.sign with
  | true =>
    rw [decodeSub_signed _ _ _ hsub hL, hfield]
    simp [expectedRead, hs]
  | false =>
    rw [decodeSub_unsigned _ _ _ hsub, hfield]
    simp [expectedRead, hs, hsub]

lemma getD_lt_of_forall (l : List Nat) (i : Nat) (h : i < l.length)
    (hb : ∀ b ∈ l, b < 256) : l.getD i 0 < 256 := by
  apply hb
  rw [List.getD_eq_getElem l 0 h]
  exact List.getElem_mem h

/-- C1 (amended): over a perfect transport (reads return the bytes last
written) and a live connection, writing any `v` to a writable descriptor of
valid geometry and reading it back succeeds and returns `expectedRead`:
the sign-extended low `leng` bits of `v` for signed fields, the low `leng`
bits for unsigned sub-byte fields, and the low `8*ceil(leng/8)` bits
reinterpreted as `int32` for unsigned multi-byte fields.  (The original
claim's "v truncated to bitLength bits" fails for unsigned multi-byte
fields whose length is not a multiple of 8, and for 32-bit values with the
high bit set; see the counterexample.) -/
theorem C1_roundtrip (regs : List LgwRegS) (id : Nat) (v : Int) (mem : Mem)
    (hid : id < regs.length)
    (hro : (regs.getD id regDefault).rdon = false)
    (hgeom : (1 ≤ (regs.getD id regDefault).leng ∧
        (regs.getD id regDefault).offs + (regs.getD id regDefault).leng ≤ 8) ∨
      ((regs.getD id regDefault).offs = 0 ∧ 1 ≤ (regs.getD id regDefault).leng ∧
        (regs.getD id regDefault).leng ≤ 32)) :
    (lgw_fpga_reg_w memOps regs true mem id v).2.2 = Except.ok () ∧
    (lgw_fpga_reg_r memOps regs true (lgw_fpga_reg_w memOps regs true mem id v).1
        id 0).2.2.1 = Except.ok () ∧
    (lgw_fpga_reg_r memOps regs true (lgw_fpga_reg_w memOps regs true mem id v).1
        id 0).2.2.2 = expectedRead (regs.getD id regDefault) v := by
  obtain ⟨d, hd⟩ : ∃ d, regs.getD id regDefault = d := ⟨_, rfl⟩
  rw [hd] at hro hgeom ⊢
  have hL : 1 ≤ d.leng := by rcases hgeom with ⟨h, _⟩ | ⟨_, h, _⟩ <;> exact h
  by_cases hsub : d.offs + d.leng ≤ 8
  · by_cases h8 : d.leng = 8 ∧ d.offs = 0
    · -- direct write path
      rw [reg_w_mem_direct regs mem id v d hid hd hro h8.1 h8.2]
      refine ⟨rfl, ?_, ?_⟩ <;>
        rw [reg_r_mem_sub regs _ id 0 d hid hd hsub]
      show decodeSub (memUpd mem FPGA_SPI_MUX_FPGA_REG d.addr (lowByte v)
          FPGA_SPI_MUX_FPGA_REG d.addr % 256) d.leng d.offs d.sign = _
      have hmem : memUpd mem FPGA_SPI_MUX_FPGA_REG d.addr (lowByte v)
          FPGA_SPI_MUX_FPGA_REG d.addr = lowByte v % 256 := by
        unfold memUpd
        rw [if_pos ⟨rfl, rfl⟩]
      have hlb := lowByte_lt v
      rw [hmem, Nat.mod_eq_of_lt (by omega), Nat.mod_eq_of_lt hlb]
      apply decodeSub_expected d v (lowByte v) hL hsub
      rw [h8.2, Nat.shiftRight_zero, h8.1]
      exact lowByte_mod_pow v 8 le_rfl
    · -- read-modify-write path
      rw [reg_w_mem_rmw regs mem id v d hid hd hro h8 hsub]
      have holdlt : mem FPGA_SPI_MUX_FPGA_REG d.addr % 256 < 256 :=
        Nat.mod_lt _ (by norm_num)
      have hB : rmwByte (mem FPGA_SPI_MUX_FPGA_REG d.addr % 256) d.offs d.leng v < 256 :=
        rmwByte_lt _ _ _ _ holdlt
      refine ⟨rfl, ?_, ?_⟩ <;>
        rw [reg_r_mem_sub regs _ id 0 d hid hd hsub]
      show decodeSub (memUpd mem FPGA_SPI_MUX_FPGA_REG d.addr
          (rmwByte (mem FPGA_SPI_MUX_FPGA_REG d.addr % 256) d.offs d.leng v)
          FPGA_SPI_MUX_FPGA_REG d.addr % 256) d.leng d.offs d.sign = _
      have hmem : memUpd mem FPGA_SPI_MUX_FPGA_REG d.addr
          (rmwByte (mem FPGA_SPI_MUX_FPGA_REG d.addr % 256) d.offs d.leng v)
          FPGA_SPI_MUX_FPGA_REG d.addr =
          rmwByte (mem FPGA_SPI_MUX_FPGA_REG d.addr % 256) d.offs d.leng v % 256 := by
        unfold memUpd
        rw [if_pos ⟨rfl, rfl⟩]
      rw [hmem, Nat.mod_eq_of_lt (by omega), Nat.mod_eq_of_lt hB]
      apply decodeSub_expected d v _ hL hsub
      rw [rmwByte_field _ d.offs d.leng v hsub]
      exact lowByte_mod_pow v d.leng (by omega)
  · -- multi-byte path
    have hm : d.offs = 0 ∧ 1 ≤ d.leng ∧ d.leng ≤ 32 := by
      rcases hgeom with ⟨h1, h2⟩ | h
      · exact absurd h2 hsub
      · exact h
    have ho : d.offs = 0 := hm.1
    have hgt : 8 < d.leng := by omega
    have hl32 : d.leng ≤ 32 := hm.2.2
    rw [reg_w_mem_multi regs mem id v d hid hd hro ho hgt hl32]
    have hblen : (splitBytes ((d.leng + 7) / 8) v).length = (d.leng + 7) / 8 :=
      splitBytes_length _ v
    have hblt : ∀ b ∈ splitBytes ((d.leng + 7) / 8) v, b < 256 :=
      splitBytes_mem_lt _ v
    refine ⟨rfl, ?_, ?_⟩ <;>
      rw [reg_r_mem_multi regs _ id 0 d hid hd ho hgt hl32]
    obtain ⟨bs, hbs⟩ : ∃ bs, splitBytes ((d.leng + 7) / 8) v = bs := ⟨_, rfl⟩
    rw [hbs] at hblen hblt ⊢
    show decodeMulti
        (assemble32 ((d.leng + 7) / 8)
          ((List.range ((d.leng + 7) / 8)).map
            fun i => memUpdList mem FPGA_SPI_MUX_FPGA_REG d.addr bs
              FPGA_SPI_MUX_FPGA_REG (d.addr + i) % 256))
        d.leng d.sign = _
    have hrb : (List.range ((d.leng + 7) / 8)).map
        (fun i => memUpdList mem FPGA_SPI_MUX_FPGA_REG d.addr bs
          FPGA_SPI_MUX_FPGA_REG (d.addr + i) % 256) = bs := by
      rw [← hblen]
      have hcong : ∀ i ∈ List.range bs.length,
          memUpdList mem FPGA_SPI_MUX_FPGA_REG d.addr bs
            FPGA_SPI_MUX_FPGA_REG (d.addr + i) % 256 = bs.getD i 0 := by
        intro i hi
        rw [List.mem_range] at hi
        rw [memUpdList_read bs mem _ _ i hi]
        have hlt := getD_lt_of_forall bs i hi hblt
        omega
      rw [List.map_congr_left hcong]
      exact range_map_getD bs
    rw [hrb]
    have hszb : 8 * ((d.leng + 7) / 8) ≤ 32 := by omega
    have hu : assemble32 ((d.leng + 7) / 8) bs =
        (v % 2 ^ (8 * ((d.leng + 7) / 8))).toNat := by
      rw [assemble32_eq _ _ hszb hblt (by omega),
        List.take_of_length_le (by omega), ← hbs, leVal_splitBytes]
    rw [hu]
    cases hs : d.sign with
    | true =>
      rw [decodeMulti_signed _ _ hL hl32,
        ← toNat_emod_pow_le v d.leng (8 * ((d.leng + 7) / 8)) (by omega)]
      simp [expectedRead, hs]
    | false =>
      rw [decodeMulti_unsigned]
      simp only [expectedRead, hs, Bool.false_eq_true, if_false]
      rw [if_neg (by omega)]

/-- Witness for `C1_roundtrip`: a signed 5-bit field at bit offset 2,
value -3, over all-zero memory. -/
theorem C1_roundtrip_witness :
    (lgw_fpga_reg_w memOps [⟨-1, 0, 2, true, 5, false, 0⟩] true mem0 0 (-3)).2.2 =
      Except.ok () ∧
    (lgw_fpga_reg_r memOps [⟨-1, 0, 2, true, 5, false, 0⟩] true
        (lgw_fpga_reg_w memOps [⟨-1, 0, 2, true, 5, false, 0⟩] true mem0 0 (-3)).1
        0 0).2.2.1 = Except.ok () ∧
    (lgw_fpga_reg_r memOps [⟨-1, 0, 2, true, 5, false, 0⟩] true
        (lgw_fpga_reg_w memOps [⟨-1, 0, 2, true, 5, false, 0⟩] true mem0 0 (-3)).1
        0 0).2.2.2 = expectedRead ⟨-1, 0, 2, true, 5, false, 0⟩ (-3) :=
  C1_roundtrip [⟨-1, 0, 2, true, 5, false, 0⟩] 0 (-3) mem0 (by norm_num)
    (by decide) (Or.inl (by decide))

/-- Counterexample to C1 as stated: an unsigned 9-bit field (valid
multi-byte geometry, writable), value 512.  The claim demands the round
trip return `v` truncated to 9 bits, i.e. `512 % 2^9 = 0`, but the code
writes two bytes (`0x00, 0x02`) and the unsigned read path reassembles
both bytes without masking, returning 512. -/
theorem C1_counterexample :
    (lgw_fpga_reg_r memOps [⟨-1, 0, 0, false, 9, false, 0⟩] true
        (lgw_fpga_reg_w memOps [⟨-1, 0, 0, false, 9, false, 0⟩] true mem0 0 512).1
        0 0).2.2.2 = 512 ∧
    (512 : Int) % 2 ^ 9 = 0 ∧ (512 : Int) ≠ 0 := by
  refine ⟨?_, by norm_num, by norm_num⟩
  decide

lemma lowByte_testBit_pattern (v : Int) (j : Nat) (hj : j < 8) :
    (lowByte v).testBit j = ((v % 2 ^ 32).toNat).testBit j := by
  have h1 : lowByte v = ((v % 2 ^ 32).toNat) % 2 ^ 8 := by
    have h2 : lowByte v = (v % 2 ^ 8).toNat := by norm_num [lowByte]
    rw [h2]
    exact toNat_emod_pow_le v 8 32 (by norm_num)
  rw [h1, Nat.testBit_mod_two_pow]
  simp [hj]

lemma rmwByte_claim_formula (old offs L : Nat) (v : Int) (h : offs + L ≤ 8) :
    rmwByte old offs L v =
      (old &&& (255 ^^^ (((1 <<< L) - 1) <<< offs))) |||
        ((((v % 2 ^ 32).toNat) <<< offs) &&& (((1 <<< L) - 1) <<< offs)) := by
  have hmask : ((1 <<< L) - 1) <<< offs = maskByte L offs := by
    rw [maskByte_eq L offs h, Nat.shiftLeft_eq, Nat.shiftLeft_eq, one_mul]
  rw [hmask]
  apply Nat.eq_of_testBit_eq
  intro i
  unfold rmwByte
  rw [Nat.testBit_lor, Nat.testBit_lor, Nat.testBit_land, Nat.testBit_land,
    Nat.testBit_land, Nat.testBit_land]
  by_cases hm : (maskByte L offs).testBit i
  · have hrange : offs ≤ i ∧ i < offs + L := by
      have := (maskByte_testBit L offs i h) ▸ hm
      exact of_decide_eq_true this
    have hi8 : i < 8 := by omega
    rw [hm, Nat.testBit_xor, hm, byte255_testBit]
    simp only [hi8, decide_True, Bool.true_xor, Bool.and_true, Bool.true_and,
      Bool.not_true, Bool.false_and, Bool.and_false, Bool.false_or, Bool.or_false]
    have h256 : (256 : Nat) = 2 ^ 8 := by norm_num
    rw [h256, Nat.testBit_mod_two_pow, Nat.testBit_shiftLeft, Nat.testBit_shiftLeft]
    have hge : i ≥ offs := hrange.1
    simp only [hi8, decide_True, Bool.true_and, ge_iff_le, hge, Bool.true_and]
    rw [lowByte_testBit_pattern v (i - offs) (by omega)]
  · have hmf : (maskByte L offs).testBit i = false := by
      simp [hm]
    rw [hmf, Nat.testBit_xor, hmf, byte255_testBit]
    simp [Bool.and_comm]

/-- C2 (amended): for a *writable* multi-byte descriptor (`offs = 0`,
`8 < leng ≤ 32`) and a live connection, Write emits exactly one burst of
`ceil(leng/8)` bytes at the descriptor's address, little-endian (their
little-endian valuation is the low `8*ceil(leng/8)` bits of `v`); writing
`0x12345678` to a writable 32-bit register transmits `[0x78, 0x56, 0x34,
0x12]` and reads back as `0x12345678`.  (The original claim omits the
writable condition; the table's only 32-bit register, TIMESTAMP, is
read-only and emits nothing — see the counterexample.) -/
theorem C2_burst_write :
    (∀ {σ : Type} (ops : SpiOps σ) (s : σ) (regs : List LgwRegS) (id : Nat) (v : Int),
      id < regs.length →
      (regs.getD id regDefault).rdon = false →
      (regs.getD id regDefault).offs = 0 →
      8 < (regs.getD id regDefault).leng →
      (regs.getD id regDefault).leng ≤ 32 →
      (lgw_fpga_reg_w ops regs true s id v).2.1 =
        [SpiOp.wb true FPGA_SPI_MUX_FPGA_REG (regs.getD id regDefault).addr
          (splitBytes (((regs.getD id regDefault).leng + 7) / 8) v)] ∧
      (splitBytes (((regs.getD id regDefault).leng + 7) / 8) v).length =
        ((regs.getD id regDefault).leng + 7) / 8 ∧
      leVal (splitBytes (((regs.getD id regDefault).leng + 7) / 8) v) =
        (v % 2 ^ (8 * (((regs.getD id regDefault).leng + 7) / 8))).toNat) ∧
    (lgw_fpga_reg_w memOps [⟨-1, 0, 0, false, 32, false, 0⟩] true mem0 0 0x12345678).2.1 =
      [SpiOp.wb true FPGA_SPI_MUX_FPGA_REG 0 [0x78, 0x56, 0x34, 0x12]] ∧
    (lgw_fpga_reg_r memOps [⟨-1, 0, 0, false, 32, false, 0⟩] true
        (lgw_fpga_reg_w memOps [⟨-1, 0, 0, false, 32, false, 0⟩] true mem0 0
          0x12345678).1 0 0).2.2.2 = 0x12345678 := by
  refine ⟨?_, by decide, by decide⟩
  intro σ ops s regs id v hid hro ho hgt hl32
  rw [reg_w_branch_multi ops regs s id v (regs.getD id regDefault) hid rfl hro ho hgt hl32]
  exact ⟨rfl, splitBytes_length _ v, leVal_splitBytes _ v⟩

/-- Witness for `C2_burst_write`: a writable 24-bit register at address 5,
value -1 (bytes `[255, 255, 255]`). -/
theorem C2_burst_write_witness :
    (lgw_fpga_reg_w memOps [⟨-1, 5, 0, false, 24, false, 0⟩] true mem0 0 (-1)).2.1 =
      [SpiOp.wb true FPGA_SPI_MUX_FPGA_REG 5 (splitBytes 3 (-1))] ∧
    (splitBytes 3 (-1 : Int)).length = 3 ∧
    leVal (splitBytes 3 (-1 : Int)) = ((-1 : Int) % 2 ^ 24).toNat :=
  C2_burst_write.1 memOps mem0 [⟨-1, 5, 0, false, 24, false, 0⟩] 0 (-1)
    (by norm_num) (by decide) (by decide) (by decide) (by decide)

/-- Counterexample to C2 as stated: TIMESTAMP (identifier 8) is a 32-bit
register (`offs = 0`, `leng = 32`) but is read-only, so Write performs no
burst at all: it returns the read-only error with an empty transport trace
instead of emitting 4 bytes. -/
theorem C2_counterexample :
    (fpga_regs.getD 8 regDefault).offs = 0 ∧
    8 < (fpga_regs.getD 8 regDefault).leng ∧
    (fpga_regs.getD 8 regDefault).leng ≤ 32 ∧
    (lgw_fpga_reg_w memOps fpga_regs true mem0 8 0x12345678).2 =
      ([], Except.error RegErr.readOnly) := by
  decide

/-- C3 (confirmed): a sub-byte write is a read-modify-write that stores back
exactly `(oldByte & ~mask) | ((value << bitOffset) & mask)` with
`mask = ((1 << bitLength) - 1) << bitOffset`, and every bit outside the mask
keeps the value of the corresponding bit of the old byte. -/
theorem C3_rmw_frame (regs : List LgwRegS) (id : Nat) (v : Int) (mem : Mem)
    (hid : id < regs.length)
    (hro : (regs.getD id regDefault).rdon = false)
    (hsub : (regs.getD id regDefault).offs + (regs.getD id regDefault).leng ≤ 8)
    (hn8 : ¬ ((regs.getD id regDefault).leng = 8 ∧ (regs.getD id regDefault).offs = 0)) :
    lgw_fpga_reg_w memOps regs true mem id v =
      (memUpd mem FPGA_SPI_MUX_FPGA_REG (regs.getD id regDefault).addr
        (rmwByte (mem FPGA_SPI_MUX_FPGA_REG (regs.getD id regDefault).addr % 256)
          (regs.getD id regDefault).offs (regs.getD id regDefault).leng v),
       [SpiOp.r true FPGA_SPI_MUX_FPGA_REG (regs.getD id regDefault).addr,
        SpiOp.w true FPGA_SPI_MUX_FPGA_REG (regs.getD id regDefault).addr
          (rmwByte (mem FPGA_SPI_MUX_FPGA_REG (regs.getD id regDefault).addr % 256)
            (regs.getD id regDefault).offs (regs.getD id regDefault).leng v)],
       Except.ok ()) ∧
    rmwByte (mem FPGA_SPI_MUX_FPGA_REG (regs.getD id regDefault).addr % 256)
        (regs.getD id regDefault).offs (regs.getD id regDefault).leng v =
      ((mem FPGA_SPI_MUX_FPGA_REG (regs.getD id regDefault).addr % 256) &&&
        (255 ^^^ (((1 <<< (regs.getD id regDefault).leng) - 1) <<<
          (regs.getD id regDefault).offs))) |||
      ((((v % 2 ^ 32).toNat) <<< (regs.getD id regDefault).offs) &&&
        (((1 <<< (regs.getD id regDefault).leng) - 1) <<<
          (regs.getD id regDefault).offs)) ∧
    (∀ i : Nat,
      ((((1 <<< (regs.getD id regDefault).leng) - 1) <<<
        (regs.getD id regDefault).offs)).testBit i = false →
      (rmwByte (mem FPGA_SPI_MUX_FPGA_REG (regs.getD id regDefault).addr % 256)
          (regs.getD id regDefault).offs (regs.getD id regDefault).leng v).testBit i =
        ((mem FPGA_SPI_MUX_FPGA_REG (regs.getD id regDefault).addr % 256)).testBit i) := by
  obtain ⟨d, hd⟩ : ∃ d, regs.getD id regDefault = d := ⟨_, rfl⟩
  rw [hd] at hro hsub hn8 ⊢
  have hmask : ((1 <<< d.leng) - 1) <<< d.offs = maskByte d.leng d.offs := by
    rw [maskByte_eq d.leng d.offs hsub, Nat.shiftLeft_eq, Nat.shiftLeft_eq, one_mul]
  have hold : mem FPGA_SPI_MUX_FPGA_REG d.addr % 256 < 256 := Nat.mod_lt _ (by norm_num)
  refine ⟨reg_w_mem_rmw regs mem id v d hid hd hro hn8 hsub,
    rmwByte_claim_formula _ d.offs d.leng v hsub, ?_⟩
  intro i hi
  rw [hmask] at hi
  exact rmwByte_testBit_outside _ d.offs d.leng v i hsub hold hi

/-- Witness for `C3_rmw_frame`: a 3-bit field at offset 2, old byte 255,
value 2; sibling bit 0 (outside the mask) is preserved. -/
theorem C3_rmw_frame_witness :
    lgw_fpga_reg_w memOps [⟨-1, 0, 2, false, 3, false, 0⟩] true (fun _ _ => 255) 0 2 =
      (memUpd (fun _ _ => 255) FPGA_SPI_MUX_FPGA_REG 0 (rmwByte 255 2 3 2),
       [SpiOp.r true FPGA_SPI_MUX_FPGA_REG 0,
        SpiOp.w true FPGA_SPI_MUX_FPGA_REG 0 (rmwByte 255 2 3 2)],
       Except.ok ()) ∧
    rmwByte 255 2 3 2 =
      (255 &&& (255 ^^^ (((1 <<< 3) - 1) <<< 2))) |||
        ((((2 : Int) % 2 ^ 32).toNat <<< 2) &&& (((1 <<< 3) - 1) <<< 2)) ∧
    (rmwByte 255 2 3 2).testBit 0 = (255 : Nat).testBit 0 :=
  have h := C3_rmw_frame [⟨-1, 0, 2, false, 3, false, 0⟩] 0 2 (fun _ _ => 255)
    (by norm_num) (by decide) (by decide) (by decide)
  ⟨h.1, h.2.1, h.2.2 0 (by decide)⟩

/-- C4 (confirmed): reading any signed descriptor of valid geometry over a
perfect transport yields a value in `[-2^(leng-1), 2^(leng-1) - 1]` (the
field is left-aligned and arithmetic-right-shifted back), and for a signed
4-bit field the stored pattern `0b1000` reads as -8 and `0b0111` as 7. -/
theorem C4_signed_read :
    (∀ (regs : List LgwRegS) (id : Nat) (v0 : Int) (mem : Mem),
      id < regs.length →
      (regs.getD id regDefault).sign = true →
      1 ≤ (regs.getD id regDefault).leng →
      ((regs.getD id regDefault).offs + (regs.getD id regDefault).leng ≤ 8 ∨
        ((regs.getD id regDefault).offs = 0 ∧ (regs.getD id regDefault).leng ≤ 32)) →
      -(2 ^ ((regs.getD id regDefault).leng - 1) : Int) ≤
          (lgw_fpga_reg_r memOps regs true mem id v0).2.2.2 ∧
        (lgw_fpga_reg_r memOps regs true mem id v0).2.2.2 ≤
          2 ^ ((regs.getD id regDefault).leng - 1) - 1) ∧
    (lgw_fpga_reg_r memOps [⟨-1, 0, 0, true, 4, false, 0⟩] true
      (fun _ _ => 8) 0 0).2.2.2 = -8 ∧
    (lgw_fpga_reg_r memOps [⟨-1, 0, 0, true, 4, false, 0⟩] true
      (fun _ _ => 7) 0 0).2.2.2 = 7 := by
  refine ⟨?_, by decide, by decide⟩
  intro regs id v0 mem hid hs hL hgeom
  obtain ⟨d, hd⟩ : ∃ d, regs.getD id regDefault = d := ⟨_, rfl⟩
  rw [hd] at hs hL hgeom ⊢
  by_cases hsub : d.offs + d.leng ≤ 8
  · rw [reg_r_mem_sub regs mem id v0 d hid hd hsub]
    show -(2 ^ (d.leng - 1) : Int) ≤
        decodeSub (mem FPGA_SPI_MUX_FPGA_REG d.addr % 256) d.leng d.offs d.sign ∧ _
    rw [hs, decodeSub_signed _ _ _ hsub hL]
    exact sext_range d.leng _ hL (Nat.mod_lt _ (by positivity))
  · have hm : d.offs = 0 ∧ d.leng ≤ 32 := by
      rcases hgeom with h | h
      · exact absurd h hsub
      · exact h
    have hgt : 8 < d.leng := by omega
    rw [reg_r_mem_multi regs mem id v0 d hid hd hm.1 hgt hm.2]
    show -(2 ^ (d.leng - 1) : Int) ≤
        decodeMulti _ d.leng d.sign ∧ _
    rw [hs, decodeMulti_signed _ _ hL hm.2]
    exact sext_range d.leng _ hL (Nat.mod_lt _ (by positivity))

/-- Witness for `C4_signed_read`: a signed 6-bit field at offset 1 over
memory holding 0xDB everywhere. -/
theorem C4_signed_read_witness :
    -(2 ^ 5 : Int) ≤
      (lgw_fpga_reg_r memOps [⟨-1, 3, 1, true, 6, false, 0⟩] true
        (fun _ _ => 0xDB) 0 0).2.2.2 ∧
    (lgw_fpga_reg_r memOps [⟨-1, 3, 1, true, 6, false, 0⟩] true
        (fun _ _ => 0xDB) 0 0).2.2.2 ≤ 2 ^ 5 - 1 :=
  C4_signed_read.1 [⟨-1, 3, 1, true, 6, false, 0⟩] 0 0 (fun _ _ => 0xDB)
    (by norm_num) (by decide) (by decide) (Or.inl (by decide))

/-- C5 (amended): while disconnected, Read and Write on an in-range
identifier return the not-connected error with no transport operation and
no state change; but for an out-of-range identifier the range check fires
first, returning the invalid-identifier error (still with no transport
operation) — the connection-state check is NOT performed before every other
check. -/
theorem C5_gating {σ : Type} (ops : SpiOps σ) (s : σ) (id : Nat) (v : Int) :
    (id < fpga_regs.length →
      lgw_fpga_reg_w ops fpga_regs false s id v =
        (s, [], Except.error RegErr.notConnected) ∧
      lgw_fpga_reg_r ops fpga_regs false s id v =
        (s, [], Except.error RegErr.notConnected, v)) ∧
    (fpga_regs.length ≤ id →
      lgw_fpga_reg_w ops fpga_regs false s id v =
        (s, [], Except.error RegErr.invalidId) ∧
      lgw_fpga_reg_r ops fpga_regs false s id v =
        (s, [], Except.error RegErr.invalidId, v)) := by
  constructor
  · intro h
    have h1 : ¬ fpga_regs.length ≤ id := by omega
    constructor
    · simp [lgw_fpga_reg_w, h1]
    · simp [lgw_fpga_reg_r, h1]
  · intro h
    constructor
    · simp [lgw_fpga_reg_w, h]
    · simp [lgw_fpga_reg_r, h]

/-- Witness for `C5_gating`: identifier 3 (in range) and identifier 10
(out of range) while disconnected. -/
theorem C5_gating_witness :
    (lgw_fpga_reg_w failOps fpga_regs false () 3 7 =
        ((), [], Except.error RegErr.notConnected) ∧
      lgw_fpga_reg_r failOps fpga_regs false () 3 7 =
        ((), [], Except.error RegErr.notConnected, 7)) ∧
    (lgw_fpga_reg_w failOps fpga_regs false () 10 7 =
        ((), [], Except.error RegErr.invalidId) ∧
      lgw_fpga_reg_r failOps fpga_regs false () 10 7 =
        ((), [], Except.error RegErr.invalidId, 7)) :=
  ⟨(C5_gating failOps () 3 7).1 (by norm_num [fpga_regs]),
   (C5_gating failOps () 10 7).2 (by norm_num [fpga_regs])⟩

/-- Counterexample to C5 as stated: with the connection Disconnected and
the out-of-range identifier 10 (= N), both Read and Write return the
invalid-identifier error, not NotConnected — the range check precedes the
connection-state check. -/
theorem C5_counterexample :
    (lgw_fpga_reg_w memOps fpga_regs false mem0 10 0).2 =
      ([], Except.error RegErr.invalidId) ∧
    (lgw_fpga_reg_r memOps fpga_regs false mem0 10 0).2 =
      ([], Except.error RegErr.invalidId, 0) ∧
    RegErr.invalidId ≠ RegErr.notConnected := by
  decide

/-- C6 (amended): while connected, Write to a read-only descriptor returns
the read-only error with no transport operation; WriteBurst does too for
every *non-empty* buffer, but for an empty buffer the zero-length check
fires first and returns the empty-buffer error (still without any
transport operation). -/
theorem C6_read_only {σ : Type} (ops : SpiOps σ) (s : σ) (regs : List LgwRegS)
    (id : Nat) (v : Int) (bytes : List Nat)
    (hid : id < regs.length) (hro : (regs.getD id regDefault).rdon = true) :
    lgw_fpga_reg_w ops regs true s id v = (s, [], Except.error RegErr.readOnly) ∧
    (bytes ≠ [] →
      lgw_fpga_reg_wb ops regs true s id bytes =
        (s, [], Except.error RegErr.readOnly)) ∧
    lgw_fpga_reg_wb ops regs true s id [] =
      (s, [], Except.error RegErr.emptyBuffer) := by
  obtain ⟨d, hd⟩ : ∃ d, regs.getD id regDefault = d := ⟨_, rfl⟩
  rw [hd] at hro
  have h1 : ¬ regs.length ≤ id := by omega
  refine ⟨?_, ?_, ?_⟩
  · simp only [lgw_fpga_reg_w, h1, if_false, hd, hro, if_true,
      Bool.true_eq_false, Bool.false_eq_true]
  · intro hb
    have hlen : ¬ bytes.length = 0 := by simpa using hb
    simp only [lgw_fpga_reg_wb, h1, if_false, hd, hro, hlen, if_true,
      Bool.true_eq_false, Bool.false_eq_true]
  · simp only [lgw_fpga_reg_wb, List.length_nil, if_true]

/-- Witness for `C6_read_only`: the read-only VERSION register (id 1), a
one-byte burst and the empty burst. -/
theorem C6_read_only_witness :
    lgw_fpga_reg_w failOps fpga_regs true () 1 5 =
      ((), [], Except.error RegErr.readOnly) ∧
    ([42] ≠ ([] : List Nat) →
      lgw_fpga_reg_wb failOps fpga_regs true () 1 [42] =
        ((), [], Except.error RegErr.readOnly)) ∧
    lgw_fpga_reg_wb failOps fpga_regs true () 1 [] =
      ((), [], Except.error RegErr.emptyBuffer) :=
  C6_read_only failOps () fpga_regs 1 5 [42] (by norm_num [fpga_regs]) (by decide)

/-- Counterexample to C6 as stated: WriteBurst of the empty byte list to
the read-only VERSION register (id 1) while connected returns the
empty-buffer error, not ReadOnlyViolation (the zero-length check precedes
the read-only check). -/
theorem C6_counterexample :
    (lgw_fpga_reg_wb memOps fpga_regs true mem0 1 []).2 =
      ([], Except.error RegErr.emptyBuffer) ∧
    (fpga_regs.getD 1 regDefault).rdon = true ∧
    RegErr.emptyBuffer ≠ RegErr.readOnly := by
  decide

lemma connect_mem_eval (mem : Mem) (st0 : Bool) :
    lgw_fpga_connect memOps fpga_regs true st0 mem =
      (if mem FPGA_SPI_MUX_FPGA_REG 1 % 256 = 0 ∨ mem FPGA_SPI_MUX_FPGA_REG 1 % 256 = 255
        then (true, mem,
          (if st0 then [SpiOp.closeLink] else []) ++
            [SpiOp.openLink, SpiOp.r true FPGA_SPI_MUX_FPGA_REG 1],
          Except.error RegErr.deviceAbsent)
        else if (mem FPGA_SPI_MUX_FPGA_REG 1 % 256 : Int) ≠ 18
          then (true, mem,
            (if st0 then [SpiOp.closeLink] else []) ++
              [SpiOp.openLink, SpiOp.r true FPGA_SPI_MUX_FPGA_REG 1],
            Except.error RegErr.versionMismatch)
          else (true, mem,
            (if st0 then [SpiOp.closeLink] else []) ++
              [SpiOp.openLink, SpiOp.r true FPGA_SPI_MUX_FPGA_REG 1],
            Except.ok ())) := rfl

/-- C7 (amended): `connect()` reads the version register and fails on the
device-absent branch when the byte is 0x00 or 0xFF, and on the
version-mismatch branch when it differs from the VERSION descriptor's
default (18); but both failures — like every error of the layer — are
reported to the caller as the same return code `LGW_REG_ERROR` (-1), so
they are NOT distinguishable by the caller. -/
theorem C7_handshake (mem : Mem) (st0 : Bool) :
    ((mem FPGA_SPI_MUX_FPGA_REG 1 % 256 = 0 ∨ mem FPGA_SPI_MUX_FPGA_REG 1 % 256 = 255) →
      (lgw_fpga_connect memOps fpga_regs true st0 mem).2.2.2 =
          Except.error RegErr.deviceAbsent ∧
        retCode (lgw_fpga_connect memOps fpga_regs true st0 mem).2.2.2 = -1) ∧
    (¬ (mem FPGA_SPI_MUX_FPGA_REG 1 % 256 = 0 ∨
        mem FPGA_SPI_MUX_FPGA_REG 1 % 256 = 255) →
      mem FPGA_SPI_MUX_FPGA_REG 1 % 256 ≠ 18 →
      (lgw_fpga_connect memOps fpga_regs true st0 mem).2.2.2 =
          Except.error RegErr.versionMismatch ∧
        retCode (lgw_fpga_connect memOps fpga_regs true st0 mem).2.2.2 = -1) ∧
    (mem FPGA_SPI_MUX_FPGA_REG 1 % 256 = 18 →
      (lgw_fpga_connect memOps fpga_regs true st0 mem).2.2.2 = Except.ok () ∧
        retCode (lgw_fpga_connect memOps fpga_regs true st0 mem).2.2.2 = 0) := by
  rw [connect_mem_eval]
  refine ⟨?_, ?_, ?_⟩
  · intro h
    rw [if_pos h]
    exact ⟨rfl, rfl⟩
  · intro h h18
    rw [if_neg h, if_pos (by exact_mod_cast h18)]
    exact ⟨rfl, rfl⟩
  · intro h
    rw [if_neg (by omega), if_neg (by simp only [ne_eq, not_not]; exact_mod_cast h)]
    exact ⟨rfl, rfl⟩

/-- Witness for `C7_handshake`: version byte 255 (device absent), 5
(version mismatch) and 18 (success). -/
theorem C7_handshake_witness :
    ((lgw_fpga_connect memOps fpga_regs true false (fun _ _ => 255)).2.2.2 =
        Except.error RegErr.deviceAbsent ∧
      retCode (lgw_fpga_connect memOps fpga_regs true false
        (fun _ _ => 255)).2.2.2 = -1) ∧
    ((lgw_fpga_connect memOps fpga_regs true false (fun _ _ => 5)).2.2.2 =
        Except.error RegErr.versionMismatch ∧
      retCode (lgw_fpga_connect memOps fpga_regs true false
        (fun _ _ => 5)).2.2.2 = -1) ∧
    ((lgw_fpga_connect memOps fpga_regs true false (fun _ _ => 18)).2.2.2 =
        Except.ok () ∧
      retCode (lgw_fpga_connect memOps fpga_regs true false
        (fun _ _ => 18)).2.2.2 = 0) :=
  ⟨(C7_handshake (fun _ _ => 255) false).1 (by norm_num),
   (C7_handshake (fun _ _ => 5) false).2.1 (by norm_num) (by norm_num),
   (C7_handshake (fun _ _ => 18) false).2.2 (by norm_num)⟩

/-- Counterexample to C7 as stated: the device-absent failure (version byte
0x00) and the version-mismatch failure (byte 77 ≠ 18) are detected by
distinct branches, but the caller receives the same return code
`LGW_REG_ERROR` (-1) for both, so the results are not distinguishable. -/
theorem C7_counterexample :
    retCode (lgw_fpga_connect memOps fpga_regs true false (fun _ _ => 0)).2.2.2 =
      retCode (lgw_fpga_connect memOps fpga_regs true false (fun _ _ => 77)).2.2.2 ∧
    (lgw_fpga_connect memOps fpga_regs true false (fun _ _ => 0)).2.2.2 =
      Except.error RegErr.deviceAbsent ∧
    (lgw_fpga_connect memOps fpga_regs true false (fun _ _ => 77)).2.2.2 =
      Except.error RegErr.versionMismatch := by
  decide

/-- C8 (amended): `connect()` sets the connection handle on every path that
passes the transport open — including failed handshakes — and leaves the
previous state only when the open itself fails; consequently, after the
open succeeds, no subsequent Read or Write fails with the not-connected
error (register access is NOT blocked after a failed handshake). -/
theorem C8_connect_state {σ : Type} (ops : SpiOps σ) (s : σ) (st0 : Bool) :
    (lgw_fpga_connect ops fpga_regs true st0 s).1 = true ∧
    (lgw_fpga_connect ops fpga_regs false st0 s).1 = st0 ∧
    (∀ (s2 : σ) (id : Nat) (v : Int),
      (lgw_fpga_reg_r ops fpga_regs true s2 id v).2.2.1 ≠
          Except.error RegErr.notConnected ∧
        (lgw_fpga_reg_w ops fpga_regs true s2 id v).2.2 ≠
          Except.error RegErr.notConnected) := by
  refine ⟨?_, ?_, ?_⟩
  · simp only [lgw_fpga_connect]
    rw [if_neg (by simp)]
    rcases hp : (ops.r s FPGA_SPI_MUX_FPGA_REG
        (fpga_regs.getD LGW_FPGA_VERSION regDefault).addr).2 with _ | u
    · simp [hp]
    · simp only [hp]
      split_ifs <;> rfl
  · simp [lgw_fpga_connect]
  · intro s2 id v
    constructor
    · by_cases hid : fpga_regs.length ≤ id
      · simp [lgw_fpga_reg_r, hid]
      · simp only [lgw_fpga_reg_r, hid, if_false, Bool.true_eq_false]
        split_ifs <;> simp
    · by_cases hid : fpga_regs.length ≤ id
      · simp [lgw_fpga_reg_w, hid]
      · simp only [lgw_fpga_reg_w, hid, if_false, Bool.true_eq_false]
        split_ifs <;> simp

/-- Counterexample to C8 as stated: starting disconnected over all-zero
memory, `connect()` fails its handshake (device absent, version byte 0x00)
yet leaves the handle set (`spi_target ≠ NULL`), and a subsequent register
read succeeds instead of failing with the not-connected error. -/
theorem C8_counterexample :
    (lgw_fpga_connect memOps fpga_regs true false mem0).1 = true ∧
    (lgw_fpga_connect memOps fpga_regs true false mem0).2.2.2 =
      Except.error RegErr.deviceAbsent ∧
    (lgw_fpga_reg_r memOps fpga_regs
        (lgw_fpga_connect memOps fpga_regs true false mem0).1
        (lgw_fpga_connect memOps fpga_regs true false mem0).2.1 2 0).2.2.1 =
      Except.ok () ∧
    (Except.ok () : Except RegErr Unit) ≠ Except.error RegErr.notConnected := by
  decide

/-- C9 (amended): when the transport read fails, Read returns the SPI error
(reported as `LGW_REG_ERROR`), but the caller's output parameter is still
overwritten — with the decode of the untouched zero-initialised buffer
(0 for every register of the table) — rather than being left unmodified. -/
theorem C9_failed_read (id : Nat) (v0 : Int) (hid : id < fpga_regs.length) :
    (lgw_fpga_reg_r failOps fpga_regs true () id v0).2.2.1 =
      Except.error RegErr.spiError ∧
    (lgw_fpga_reg_r failOps fpga_regs true () id v0).2.2.2 = 0 := by
  have h10 : id < 10 := by simpa [fpga_regs] using hid
  interval_cases id <;> exact ⟨rfl, rfl⟩

/-- Witness for `C9_failed_read`: the 32-bit TIMESTAMP register (id 8) with
initial output value 7. -/
theorem C9_failed_read_witness :
    (lgw_fpga_reg_r failOps fpga_regs true () 8 7).2.2.1 =
      Except.error RegErr.spiError ∧
    (lgw_fpga_reg_r failOps fpga_regs true () 8 7).2.2.2 = 0 :=
  C9_failed_read 8 7 (by norm_num [fpga_regs])

/-- Counterexample to C9 as stated: reading FPGA_STATUS (id 2) over a
failing transport with the caller's output initially 5 returns the
transport error, yet the output has been overwritten to 0 — the
caller-visible output IS modified by the failed call. -/
theorem C9_counterexample :
    (lgw_fpga_reg_r failOps fpga_regs true () 2 5).2.2 =
      (Except.error RegErr.spiError, 0) ∧
    (0 : Int) ≠ 5 := by
  decide

/-- C10 (confirmed): the SX1272 passthrough operations perform no
connection-state check: for every connection state (including a null
handle), they invoke the transport exactly once with the current handle
and the SX1272 mux selector, and return the transport's own status — never
the not-connected error. -/
theorem C10_passthrough {σ : Type} (ops : SpiOps σ) (st : Bool) (s : σ)
    (address reg_value : Nat) :
    lgw_sx1272_reg_w ops st s address reg_value =
      ((ops.w s FPGA_SPI_MUX_SX1272 address reg_value).1,
       [SpiOp.w st FPGA_SPI_MUX_SX1272 address reg_value],
       if (ops.w s FPGA_SPI_MUX_SX1272 address reg_value).2 then Except.ok ()
       else Except.error RegErr.spiError) ∧
    lgw_sx1272_reg_r ops st s address =
      ((ops.r s FPGA_SPI_MUX_SX1272 address).1,
       [SpiOp.r st FPGA_SPI_MUX_SX1272 address],
       (if (ops.r s FPGA_SPI_MUX_SX1272 address).2.isSome then Except.ok ()
        else Except.error RegErr.spiError),
       (ops.r s FPGA_SPI_MUX_SX1272 address).2.getD 0) ∧
    (lgw_sx1272_reg_w ops st s address reg_value).2.2 ≠
      Except.error RegErr.notConnected ∧
    (lgw_sx1272_reg_r ops st s address).2.2.1 ≠
      Except.error RegErr.notConnected := by
  refine ⟨rfl, rfl, ?_, ?_⟩
  · cases h : (ops.w s FPGA_SPI_MUX_SX1272 address reg_value).2 <;>
      simp [lgw_sx1272_reg_w, h]
  · cases h : (ops.r s FPGA_SPI_MUX_SX1272 address).2.isSome <;>
      simp [lgw_sx1272_reg_r, h]
